import Mathlib

/-!
Shallow embedding of the flattening and validation pipeline of the
hydraulic-maintenance repository (src/ingest/load_data.py and
src/validation/validate_data.py), with theorems settling the
specification's claims against the embedded code.
-/

namespace Hydraulic

/-- A CycleMatrix as produced by pandas read_csv: a list of rows.
Models the 2-D numeric array of one sensor (rows = cycles, columns =
within-cycle sample index).  The value type is a parameter because the
Flattener only moves values around, it never computes with them. -/
structure CycleMatrix (α : Type) where
  rows : List (List α)
deriving DecidableEq

/-- Number of rows, df.shape[0] in the source. -/
def CycleMatrix.nRows {α : Type} (m : CycleMatrix α) : Nat := m.rows.length

/-- Number of columns, df.shape[1] in the source (pandas tables are
rectangular, so the shape records the common row length). -/
def CycleMatrix.nCols {α : Type} (m : CycleMatrix α) : Nat := (m.rows.headD []).length

/-- Row-major flattening, df.to_numpy().flatten() in the source. -/
def CycleMatrix.flatten {α : Type} (m : CycleMatrix α) : List α := m.rows.flatten

/-- Rectangularity with a given shape: what pandas guarantees for a
parsed file of nc lines with spc tab-separated fields each. -/
def CycleMatrix.HasShape {α : Type} (m : CycleMatrix α) (nc spc : Nat) : Prop :=
  m.rows.length = nc ∧ ∀ r ∈ m.rows, r.length = spc

instance {α : Type} (m : CycleMatrix α) (nc spc : Nat) :
    Decidable (m.HasShape nc spc) :=
  inferInstanceAs (Decidable (_ ∧ _))

/-- Semantics of np.repeat(l, k): each element repeated k times, in order. -/
def npRepeat (l : List Nat) (k : Nat) : List Nat :=
  l.flatMap (fun a => List.replicate k a)

/-- Semantics of np.tile(l, n): the whole list l concatenated n times. -/
def npTile (l : List Nat) (n : Nat) : List Nat :=
  (List.replicate n l).flatten

/-- The DataFrame assembled by build_flat_df after the final column
reordering: metadata columns cycle and t_in_cycle, then one column per
sensor in input-list order. -/
structure FlatTable (α : Type) where
  cycle : List Nat
  t_in_cycle : List Nat
  sensorCols : List (String × List α)
deriving DecidableEq

/-- Column labels of the table, in order. -/
def FlatTable.colNames {α : Type} (t : FlatTable α) : List String :=
  "cycle" :: "t_in_cycle" :: t.sensorCols.map Prod.fst

/-- Row count of the table (pandas len(df): the common column length). -/
def FlatTable.nRows {α : Type} (t : FlatTable α) : Nat := t.cycle.length

/-- Failure modes of build_flat_df as the Python code actually behaves. -/
inductive BuildError where
  /-- The TypeError raised by n_cycles + 1 inside np.arange when the
  sensor list is empty, so the shape variables were never set. -/
  | noneTypeArith
  /-- The ValueError raised by the pandas DataFrame constructor when the
  supplied 1-D arrays do not all share one length. -/
  | arrayLengthMismatch
deriving DecidableEq

/-- Embedding of build_flat_df (src/ingest/load_data.py, lines 40-62).
The shape variables are taken from the first sensor only; every matrix
is flattened row-major; the metadata columns are synthesized with
np.repeat and np.tile; the DataFrame constructor insists that all the
1-D arrays share one length (pandas ValueError otherwise); finally the
columns are reordered to cycle, t_in_cycle, then the sensors in input
order.  No shape comparison of later sensors against the first is
performed anywhere in the source. -/
def build_flat_df {α : Type} (sensors : List (String × CycleMatrix α)) :
    Except BuildError (FlatTable α) :=
  match sensors with
  | [] => .error .noneTypeArith
  | (_, m0) :: _ =>
    let spc := m0.nCols
    let nc := m0.nRows
    let arrays := sensors.map (fun p => (p.1, p.2.flatten))
    if arrays.all (fun p => p.2.length == nc * spc) then
      .ok { cycle := npRepeat (List.range' 1 nc) spc,
            t_in_cycle := npTile (List.range spc) nc,
            sensorCols := arrays }
    else .error .arrayLengthMismatch

/-! Bridging lemmas: closed forms of the synthesized metadata columns. -/

/-- The repeated-cycle column, in closed form: entry r is r / spc + a. -/
theorem npRepeat_range' (nc spc a : Nat) :
    npRepeat (List.range' (a + 1) nc) spc
      = (List.range (nc * spc)).map (fun r => r / spc + (a + 1)) := by
  induction nc generalizing a with
  | zero => simp [npRepeat]
  | succ n ih =>
    have hrange : List.range' (a + 1) (n + 1) = (a + 1) :: List.range' (a + 2) n := by
      simp [List.range'_succ]
    rw [hrange]
    have hsum : (n + 1) * spc = spc + n * spc := by ring
    rw [hsum, List.range_add, List.map_append]
    have h1 : (List.range spc).map (fun r => r / spc + (a + 1))
        = List.replicate spc (a + 1) := by
      rw [List.eq_replicate_iff]
      refine ⟨by simp, ?_⟩
      intro b hb
      simp only [List.mem_map, List.mem_range] at hb
      obtain ⟨r, hr, rfl⟩ := hb
      rw [Nat.div_eq_of_lt hr]
      omega
    have h2 : ((List.range (n * spc)).map (spc + ·)).map (fun r => r / spc + (a + 1))
        = (List.range (n * spc)).map (fun r => r / spc + (a + 2)) := by
      rw [List.map_map]
      apply List.map_congr_left
      intro r hr
      simp only [List.mem_range] at hr
      have hspc : 0 < spc := by
        rcases Nat.eq_zero_or_pos spc with h | h
        · subst h; simp at hr
        · exact h
      simp only [Function.comp]
      rw [Nat.add_comm spc r, Nat.add_div_right r hspc]
      omega
    rw [h1, h2, ← ih (a + 1)]
    simp [npRepeat]

/-- The tiled offset column, in closed form: entry r is r % spc. -/
theorem npTile_range (nc spc : Nat) :
    npTile (List.range spc) nc
      = (List.range (nc * spc)).map (fun r => r % spc) := by
  induction nc with
  | zero => simp [npTile]
  | succ n ih =>
    have hsum : (n + 1) * spc = spc + n * spc := by ring
    rw [hsum, List.range_add, List.map_append]
    have h1 : (List.range spc).map (fun r => r % spc) = List.range spc := by
      have h : ∀ r ∈ List.range spc, r % spc = id r := by
        intro r hr
        exact Nat.mod_eq_of_lt (List.mem_range.mp hr)
      rw [List.map_congr_left h, List.map_id]
    have h2 : ((List.range (n * spc)).map (spc + ·)).map (fun r => r % spc)
        = (List.range (n * spc)).map (fun r => r % spc) := by
      rw [List.map_map]
      apply List.map_congr_left
      intro r _
      simp [Function.comp, Nat.add_mod_left]
    rw [h1, h2, ← ih]
    simp [npTile, List.replicate_succ]

/-- Flattening a rectangular (nc, spc) matrix yields nc * spc values. -/
theorem CycleMatrix.flatten_length {α : Type} {m : CycleMatrix α} {nc spc : Nat}
    (h : m.HasShape nc spc) : m.flatten.length = nc * spc := by
  obtain ⟨hlen, hrow⟩ := h
  have hmap : m.rows.map List.length = List.replicate nc spc := by
    rw [List.eq_replicate_iff]
    refine ⟨by simp [hlen], ?_⟩
    intro b hb
    obtain ⟨r, hr, rfl⟩ := List.mem_map.mp hb
    exact hrow r hr
  simp [CycleMatrix.flatten, List.length_flatten, hmap, List.sum_replicate, smul_eq_mul]

/-- Counting occurrences in the repeated column. -/
theorem count_npRepeat (i : Nat) (l : List Nat) (k : Nat) :
    (npRepeat l k).count i = k * l.count i := by
  induction l with
  | nil => simp [npRepeat]
  | cons a t ih =>
    have hcons : npRepeat (a :: t) k = List.replicate k a ++ npRepeat t k := by
      simp [npRepeat]
    rw [hcons, List.count_append, ih, List.count_replicate, List.count_cons]
    cases h : (a == i)
    · simp [h]
    · simp [h]
      ring

/-- On a group whose matrices all have shape (nc, spc), build_flat_df
succeeds and produces exactly the table with the synthesized metadata
columns (given here in closed form) and the flattened sensor columns. -/
theorem build_flat_df_ok {α : Type} (s0 : String × CycleMatrix α)
    (rest : List (String × CycleMatrix α)) (nc spc : Nat)
    (hall : ∀ p ∈ s0 :: rest, p.2.HasShape nc spc) :
    build_flat_df (s0 :: rest) =
      .ok { cycle := (List.range (nc * spc)).map (fun r => r / spc + 1),
            t_in_cycle := (List.range (nc * spc)).map (fun r => r % spc),
            sensorCols := (s0 :: rest).map (fun p => (p.1, p.2.flatten)) } := by
  obtain ⟨n0, m0⟩ := s0
  have h0 := hall (n0, m0) (List.mem_cons_self (n0, m0) rest)
  have hnr : m0.nRows = nc := h0.1
  have hflat : ∀ p ∈ (n0, m0) :: rest, p.2.flatten.length = nc * spc := by
    intro p hp
    exact CycleMatrix.flatten_length (hall p hp)
  have hcheck : (((n0, m0) :: rest).map (fun p => (p.1, p.2.flatten))).all
      (fun p => p.2.length == m0.nRows * m0.nCols) = true := by
    rw [List.all_eq_true]
    intro x hx
    obtain ⟨p, hp, rfl⟩ := List.mem_map.mp hx
    rcases Nat.eq_zero_or_pos nc with hnc | hnc
    · have hrows : m0.rows = [] := by
        apply List.length_eq_zero.mp
        exact hnr.trans hnc
      have hcols0 : m0.nCols = 0 := by simp [CycleMatrix.nCols, hrows]
      simp only [hflat p hp, hnr, hcols0, hnc]
      simp
    · have hrne : m0.rows ≠ [] := by
        intro hmt
        rw [CycleMatrix.nRows, hmt] at hnr
        simp at hnr
        omega
      obtain ⟨r0, rtl, hr0⟩ := List.exists_cons_of_ne_nil hrne
      have hcols : m0.nCols = spc := by
        rw [CycleMatrix.nCols, hr0]
        exact h0.2 r0 (by rw [hr0]; exact List.mem_cons_self r0 rtl)
      simp [hflat p hp, hnr, hcols]
  simp only [build_flat_df, hcheck, if_true]
  rcases Nat.eq_zero_or_pos nc with hnc | hnc
  · have hrows : m0.rows = [] := by
      apply List.length_eq_zero.mp
      exact hnr.trans hnc
    have hcols0 : m0.nCols = 0 := by simp [CycleMatrix.nCols, hrows]
    rw [hnr, hcols0, hnc]
    simp [npRepeat, npTile]
  · have hrne : m0.rows ≠ [] := by
      intro hmt
      rw [CycleMatrix.nRows, hmt] at hnr
      simp at hnr
      omega
    obtain ⟨r0, rtl, hr0⟩ := List.exists_cons_of_ne_nil hrne
    have hcols : m0.nCols = spc := by
      rw [CycleMatrix.nCols, hr0]
      exact h0.2 r0 (by rw [hr0]; exact List.mem_cons_self r0 rtl)
    rw [hnr, hcols, npRepeat_range' nc spc 0, npTile_range nc spc]

/-- C1: for every non-empty list of sensors whose matrices all have the
same shape (nc, spc), the Flattener succeeds and the FlatTable has
exactly nc * spc rows (every column included), its columns are cycle and
t_in_cycle followed by the sensor identifiers in input order, its cycle
column is the values 1..nc each repeated spc times consecutively (hence
non-decreasing, and each value 1..nc occurs exactly spc times), and its
t_in_cycle column is the sequence 0..spc-1 repeated nc times. -/
theorem claim_C1_flattener_output {α : Type} (s0 : String × CycleMatrix α)
    (rest : List (String × CycleMatrix α)) (nc spc : Nat)
    (hall : ∀ p ∈ s0 :: rest, p.2.HasShape nc spc) :
    ∃ t : FlatTable α, build_flat_df (s0 :: rest) = .ok t ∧
      t.nRows = nc * spc ∧
      (∀ c ∈ t.sensorCols, c.2.length = nc * spc) ∧
      t.colNames = "cycle" :: "t_in_cycle" :: (s0 :: rest).map Prod.fst ∧
      t.cycle = npRepeat (List.range' 1 nc) spc ∧
      t.t_in_cycle = npTile (List.range spc) nc ∧
      t.cycle.Chain' (· ≤ ·) ∧
      (∀ i ∈ List.range' 1 nc, t.cycle.count i = spc) := by
  refine ⟨_, build_flat_df_ok s0 rest nc spc hall, ?_, ?_, ?_, ?_, ?_, ?_, ?_⟩
  · simp [FlatTable.nRows]
  · intro c hc
    obtain ⟨p, hp, rfl⟩ := List.mem_map.mp hc
    exact CycleMatrix.flatten_length (hall p hp)
  · simp [FlatTable.colNames, List.map_map, Function.comp]
  · rw [npRepeat_range' nc spc 0]
  · rw [npTile_range nc spc]
  · have hpw : List.Pairwise (· ≤ ·)
        ((List.range (nc * spc)).map (fun r => r / spc + 1)) := by
      rw [List.pairwise_map]
      exact (List.sorted_lt_range (nc * spc)).imp
        (fun h => Nat.add_le_add_right (Nat.div_le_div_right (Nat.le_of_lt h)) 1)
    exact hpw.chain'
  · intro i hi
    rw [show ((List.range (nc * spc)).map (fun r => r / spc + 1))
          = npRepeat (List.range' 1 nc) spc from (npRepeat_range' nc spc 0).symm,
        count_npRepeat, List.count_eq_one_of_mem (List.nodup_range' _ _) hi,
        Nat.mul_one]

/-- Witness for C1 on a concrete two-sensor group of 2-by-2 matrices. -/
theorem claim_C1_witness : ∃ t : FlatTable ℚ,
    build_flat_df [("a", ⟨[[1, 2], [3, 4]]⟩), ("b", ⟨[[5, 6], [7, 8]]⟩)] = .ok t ∧
      t.nRows = 2 * 2 ∧
      (∀ c ∈ t.sensorCols, c.2.length = 2 * 2) ∧
      t.colNames = "cycle" :: "t_in_cycle" ::
        ([("a", (⟨[[1, 2], [3, 4]]⟩ : CycleMatrix ℚ)), ("b", ⟨[[5, 6], [7, 8]]⟩)]).map Prod.fst ∧
      t.cycle = npRepeat (List.range' 1 2) 2 ∧
      t.t_in_cycle = npTile (List.range 2) 2 ∧
      t.cycle.Chain' (· ≤ ·) ∧
      (∀ i ∈ List.range' 1 2, t.cycle.count i = 2) :=
  claim_C1_flattener_output ("a", ⟨[[1, 2], [3, 4]]⟩) [("b", ⟨[[5, 6], [7, 8]]⟩)] 2 2
    (by decide)

/-- C3 counterexample: a group whose second sensor has a matrix shape
different from the first sensor's shape — here (2, 1) against (1, 2) —
on which the Flattener does not fail at all: because the two flattened
arrays happen to have equal length, build_flat_df silently succeeds, so
it cannot raise any shape-mismatch failure naming the sensor. -/
theorem claim_C3_counterexample :
    ((⟨[[0, 0]]⟩ : CycleMatrix ℚ).nRows, (⟨[[0, 0]]⟩ : CycleMatrix ℚ).nCols)
        ≠ ((⟨[[0], [0]]⟩ : CycleMatrix ℚ).nRows, (⟨[[0], [0]]⟩ : CycleMatrix ℚ).nCols)
      ∧ build_flat_df [("a", (⟨[[0, 0]]⟩ : CycleMatrix ℚ)), ("b", ⟨[[0], [0]]⟩)]
        = .ok { cycle := [1, 1], t_in_cycle := [0, 1],
                sensorCols := [("a", [0, 0]), ("b", [0, 0])] } := by
  refine ⟨by decide, ?_⟩
  rfl

/-- C3 amended: the Flattener performs no shape verification.  When a
sensor's flattened matrix length differs from the product of the first
sensor's row and column counts, the table assembly fails with the
generic pandas all-arrays-must-share-one-length error, which names
neither the offending sensor nor the expected and actual shapes; and a
sensor whose shape differs from the first's but has the same total size
is accepted silently (see the counterexample). -/
theorem claim_C3_amended {α : Type} (s0 : String × CycleMatrix α)
    (rest : List (String × CycleMatrix α))
    (hbad : ∃ p ∈ s0 :: rest, p.2.flatten.length ≠ s0.2.nRows * s0.2.nCols) :
    build_flat_df (s0 :: rest) = .error .arrayLengthMismatch := by
  obtain ⟨n0, m0⟩ := s0
  have hfalse : (((n0, m0) :: rest).map (fun p => (p.1, p.2.flatten))).all
      (fun p => p.2.length == m0.nRows * m0.nCols) = false := by
    rw [List.all_eq_false]
    obtain ⟨p, hp, hne⟩ := hbad
    refine ⟨(p.1, p.2.flatten), List.mem_map_of_mem _ hp, ?_⟩
    simpa using hne
  simp only [build_flat_df]
  rw [hfalse]
  rfl

/-- Witness for the amended C3 on a concrete group with flattened
lengths 2 and 1. -/
theorem claim_C3_witness :
    build_flat_df [("a", (⟨[[0, 0]]⟩ : CycleMatrix ℚ)), ("b", ⟨[[0]]⟩)]
      = .error .arrayLengthMismatch :=
  claim_C3_amended ("a", ⟨[[0, 0]]⟩) [("b", ⟨[[0]]⟩)] (by decide)

/-- C7 counterexample: on the empty sensor list the Flattener does not
succeed with a metadata-only table — it fails. -/
theorem claim_C7_counterexample :
    ¬ ∃ t : FlatTable ℚ, build_flat_df ([] : List (String × CycleMatrix ℚ)) = .ok t := by
  rintro ⟨t, ht⟩
  simp [build_flat_df] at ht

/-- C7 amended: for the empty sensor list build_flat_df fails — the
shape variables are still None after the loop, so synthesizing the cycle
column evaluates None + 1 and raises TypeError — instead of returning a
table with only the metadata columns. -/
theorem claim_C7_amended {α : Type} (sensors : List (String × CycleMatrix α))
    (h : sensors = []) : build_flat_df sensors = .error .noneTypeArith := by
  subst h
  rfl

/-- Witness for the amended C7 at the empty list itself. -/
theorem claim_C7_witness :
    build_flat_df ([] : List (String × CycleMatrix ℚ)) = .error .noneTypeArith :=
  claim_C7_amended [] rfl

/-! Round-trip machinery for C2: ordering rows by the metadata columns
and reshaping one sensor column back into a matrix. -/

/-- Comparison of table rows by their metadata key, cycle ascending and
then t_in_cycle ascending; the attached row value is ignored. -/
def keyLE {α : Type} (a b : (Nat × Nat) × α) : Prop :=
  a.1.1 < b.1.1 ∨ (a.1.1 = b.1.1 ∧ a.1.2 ≤ b.1.2)

instance {α : Type} : DecidableRel (@keyLE α) := fun _ _ =>
  inferInstanceAs (Decidable (_ ∨ _))

/-- Reorder the table rows by (cycle ascending, t_in_cycle ascending),
reading only the metadata columns, and return the given column's values
in that row order. -/
def sortByMeta {α : Type} (t : FlatTable α) (col : List α) : List α :=
  (List.insertionSort keyLE ((t.cycle.zip t.t_in_cycle).zip col)).map Prod.snd

/-- Reshape a flat sequence into an (nc, spc) matrix, row-major as in
numpy. -/
def reshape {α : Type} (nc spc : Nat) (l : List α) : CycleMatrix α :=
  ⟨(List.range nc).map (fun i => (l.drop (i * spc)).take spc)⟩

/-- Column lookup by label, pandas df[s] on the sensor columns. -/
def lookupCol {α : Type} : List (String × List α) → String → Option (List α)
  | [], _ => none
  | (n, v) :: rest, s => if n = s then some v else lookupCol rest s

/-- Chunking the row-major flattening of a rectangular matrix back into
spc-sized pieces recovers the rows. -/
theorem reshape_rows_flatten {α : Type} (rows : List (List α)) (spc : Nat)
    (h : ∀ r ∈ rows, r.length = spc) :
    (List.range rows.length).map (fun i => (rows.flatten.drop (i * spc)).take spc)
      = rows := by
  induction rows with
  | nil => simp
  | cons r rs ih =>
    have hr : r.length = spc := h r (List.mem_cons_self r rs)
    have hrs : ∀ x ∈ rs, x.length = spc := fun x hx => h x (List.mem_cons_of_mem r hx)
    rw [List.length_cons, List.range_succ_eq_map, List.map_cons, List.map_map]
    have hhead : ((r :: rs).flatten.drop (0 * spc)).take spc = r := by
      simp only [Nat.zero_mul, List.drop_zero, List.flatten_cons]
      exact List.take_left' hr
    have htail : (List.range rs.length).map
        ((fun i => ((r :: rs).flatten.drop (i * spc)).take spc) ∘ Nat.succ) = rs := by
      rw [show (fun i => ((r :: rs).flatten.drop (i * spc)).take spc) ∘ Nat.succ
            = (fun i => (rs.flatten.drop (i * spc)).take spc) from ?_, ih hrs]
      funext i
      simp only [Function.comp, List.flatten_cons]
      rw [show Nat.succ i * spc = r.length + i * spc by
            rw [hr, Nat.succ_mul, Nat.add_comm],
          List.drop_append]
    rw [hhead, htail]

/-- The synthesized metadata keys, paired with any column of the right
length, are already sorted by keyLE, so ordering rows by the metadata is
the identity on the physically stored order. -/
theorem sortByMeta_closed_identity {α : Type} (nc spc : Nat)
    (cols : List (String × List α)) (col : List α) (hlen : col.length = nc * spc) :
    sortByMeta
      { cycle := (List.range (nc * spc)).map (fun r => r / spc + 1),
        t_in_cycle := (List.range (nc * spc)).map (fun r => r % spc),
        sensorCols := cols } col = col := by
  unfold sortByMeta
  simp only
  rw [List.zip_map']
  have hsorted : List.Sorted keyLE
      (((List.range (nc * spc)).map (fun r => (r / spc + 1, r % spc))).zip col) := by
    rw [List.Sorted, List.pairwise_iff_getElem]
    intro i j hi hj hij
    have hleni : i < nc * spc := by
      simp [List.length_zip] at hi
      omega
    have hlenj : j < nc * spc := by
      simp [List.length_zip] at hj
      omega
    rw [List.getElem_zip, List.getElem_zip]
    simp only [List.getElem_map, List.getElem_range]
    show (i / spc + 1 < j / spc + 1) ∨ (i / spc + 1 = j / spc + 1 ∧ i % spc ≤ j % spc)
    have hdiv : i / spc ≤ j / spc := Nat.div_le_div_right (Nat.le_of_lt hij)
    rcases Nat.lt_or_ge (i / spc) (j / spc) with hlt | hge
    · exact Or.inl (Nat.add_lt_add_right hlt 1)
    · have heq : i / spc = j / spc := Nat.le_antisymm hdiv hge
      refine Or.inr ⟨by rw [heq], ?_⟩
      have h1 := Nat.div_add_mod i spc
      have h2 := Nat.div_add_mod j spc
      rw [heq] at h1
      generalize spc * (j / spc) = K at h1 h2
      omega
  rw [List.Sorted.insertionSort_eq hsorted]
  apply List.map_snd_zip
  simp [hlen]

/-- Looking up a sensor's column in the assembled table returns its
flattened matrix, provided sensor identifiers are distinct. -/
theorem lookupCol_map_flatten {α : Type} (sensors : List (String × CycleMatrix α))
    (s : String) (m : CycleMatrix α) (hmem : (s, m) ∈ sensors)
    (hnd : (sensors.map Prod.fst).Nodup) :
    lookupCol (sensors.map (fun p => (p.1, p.2.flatten))) s = some m.flatten := by
  induction sensors with
  | nil => cases hmem
  | cons p ps ih =>
    obtain ⟨n0, m0⟩ := p
    rw [List.map_cons] at hnd
    rw [List.map_cons]
    rcases List.mem_cons.mp hmem with heq | hmem'
    · obtain ⟨hs, hm⟩ := Prod.mk.injEq .. ▸ heq
      subst hs
      subst hm
      simp [lookupCol]
    · have hne : n0 ≠ s := by
        intro hcontra
        subst hcontra
        have hmemfst : n0 ∈ ps.map Prod.fst := by
          have := List.mem_map_of_mem Prod.fst hmem'
          simpa using this
        exact (List.nodup_cons.mp hnd).1 hmemfst
      simp only [lookupCol, if_neg hne]
      exact ih hmem' (List.nodup_cons.mp hnd).2

/-- C2: for every non-empty same-shape group with distinct sensor
identifiers and every sensor s of the group, flattening succeeds, the
table has a column for s, and ordering the rows by the metadata columns
(cycle ascending then t_in_cycle ascending) and reshaping that column
into (nc, spc) reproduces the sensor's original CycleMatrix exactly. -/
theorem claim_C2_roundtrip {α : Type} (s0 : String × CycleMatrix α)
    (rest : List (String × CycleMatrix α)) (s : String) (m : CycleMatrix α)
    (nc spc : Nat)
    (hall : ∀ p ∈ s0 :: rest, p.2.HasShape nc spc)
    (hmem : (s, m) ∈ s0 :: rest)
    (hnd : ((s0 :: rest).map Prod.fst).Nodup) :
    ∃ t col, build_flat_df (s0 :: rest) = .ok t
      ∧ lookupCol t.sensorCols s = some col
      ∧ reshape nc spc (sortByMeta t col) = m := by
  refine ⟨_, m.flatten, build_flat_df_ok s0 rest nc spc hall, ?_, ?_⟩
  · exact lookupCol_map_flatten _ s m hmem hnd
  · have hshape := hall (s, m) hmem
    have hlen : m.flatten.length = nc * spc := CycleMatrix.flatten_length hshape
    rw [sortByMeta_closed_identity nc spc _ m.flatten hlen]
    obtain ⟨rows⟩ := m
    obtain ⟨hrows, hcols⟩ := hshape
    have hnc : rows.length = nc := hrows
    subst hnc
    have hcols' : ∀ r ∈ rows, r.length = spc := hcols
    exact congrArg CycleMatrix.mk (reshape_rows_flatten rows spc hcols')

/-- Witness for C2 on a concrete two-sensor group, looking up the second
sensor. -/
theorem claim_C2_witness : ∃ t col,
    build_flat_df [("a", (⟨[[1, 2], [3, 4]]⟩ : CycleMatrix ℚ)), ("b", ⟨[[5, 6], [7, 8]]⟩)]
        = .ok t
      ∧ lookupCol t.sensorCols "b" = some col
      ∧ reshape 2 2 (sortByMeta t col) = (⟨[[5, 6], [7, 8]]⟩ : CycleMatrix ℚ) :=
  claim_C2_roundtrip ("a", ⟨[[1, 2], [3, 4]]⟩) [("b", ⟨[[5, 6], [7, 8]]⟩)] "b"
    ⟨[[5, 6], [7, 8]]⟩ 2 2 (by decide) (by decide) (by decide)

end Hydraulic

deriving instance DecidableEq for Except

namespace Hydraulic

/-! Embedding of src/validation/validate_data.py.  Sensor columns hold
float64 values after the parquet round trip; a cell is modelled as
Option of a rational, none standing for NaN. -/

/-- Allow-list of sensors subject to the non-negativity rule (line 20). -/
def NONNEGATIVE_SENSORS : List String :=
  ["PS1", "PS2", "PS3", "PS4", "PS5", "PS6", "EPS1", "FS1", "FS2", "VS1", "CE", "CP", "SE"]

/-- Soft IQR outlier-rule multiplier (line 22 of the source). -/
def IQR_MULT : ℚ := 3

/-- Missing values dropped, pandas Series.dropna. -/
def dropna (col : List (Option ℚ)) : List ℚ := col.filterMap id

/-- Count of missing entries in one column, pandas isna().sum(). -/
def nanCount (col : List (Option ℚ)) : Nat := col.countP (fun v => v.isNone)

/-- Semantics of np.percentile with the default linear interpolation
between closest ranks of the sorted data: the virtual rank is
p / 100 * (n - 1); only ever applied to non-empty arrays in the source. -/
def percentile (p : ℚ) (x : List ℚ) : ℚ :=
  let s := List.insertionSort (· ≤ ·) x
  let pos : ℚ := p * ((x.length : ℚ) - 1) / 100
  let i : Nat := (Rat.floor pos).toNat
  let frac : ℚ := pos - (i : ℚ)
  match s[i + 1]? with
  | some b => s.getD i 0 + frac * (b - s.getD i 0)
  | none => s.getD i 0

/-- Outlier counting for one column (basic_stats, lines 49-58): drop
missing values; an empty remainder reports 0; otherwise count the
values strictly outside [q1 - k * iqr, q3 + k * iqr]. -/
def outlierCount (col : List (Option ℚ)) (k : ℚ) : Nat :=
  let x := dropna col
  if x.isEmpty then 0
  else
    let q1 := percentile 25 x
    let q3 := percentile 75 x
    let iqr := q3 - q1
    let lo := q1 - k * iqr
    let hi := q3 + k * iqr
    (x.filter (fun v => decide (v < lo) || decide (v > hi))).length

/-- Non-negativity counting for one column (basic_stats, lines 61-67):
the name is split at underscores and the first piece looked up in the
allow-list; entries strictly below zero are counted, and a NaN entry
compares false so it is never counted. -/
def negViolationCount (name : String) (col : List (Option ℚ)) : Nat :=
  let base := (name.splitOn "_").headD ""
  if base ∈ NONNEGATIVE_SENSORS then
    (col.filter (fun v => match v with
      | some q => decide (q < 0)
      | none => false)).length
  else 0

/-- The record returned by basic_stats.  The two top-10 per-column
breakdown views of the same counts are presentation-only and not
recorded.  Every embedded column is float64-valued, so the dtype check
of line 42 holds by construction, matching the tables this pipeline
writes. -/
structure Stats where
  group : String
  shape : Nat × Nat
  n_sensors : Nat
  dtypes_numeric : Bool
  nan_total : Nat
  nan_ratio : ℚ
  neg_violations_total : Int
  outliers_iqr_total : Nat
deriving DecidableEq

/-- The ZeroDivisionError escaping basic_stats when the group has no
sensor columns or no rows. -/
inductive StatsError where
  | zeroDivision
deriving DecidableEq

/-- Embedding of basic_stats (lines 39-81).  Python evaluates
float(total_nans) / (len(sensors) * n_rows) and raises
ZeroDivisionError whenever the denominator is zero; there is no
fallback to 0. -/
def basic_stats (df : FlatTable (Option ℚ)) (group : String) :
    Except StatsError Stats :=
  let sensors := df.sensorCols
  let n_rows := df.nRows
  let n_cols := 2 + sensors.length
  let total_nans := (sensors.map (fun c => nanCount c.2)).sum
  if sensors.length * n_rows = 0 then .error .zeroDivision
  else
    .ok { group := group,
          shape := (n_rows, n_cols),
          n_sensors := sensors.length,
          dtypes_numeric := true,
          nan_total := total_nans,
          nan_ratio := (total_nans : ℚ) / ((sensors.length * n_rows : Nat) : ℚ),
          neg_violations_total :=
            ((sensors.map (fun c => negViolationCount c.1 c.2)).sum : Nat),
          outliers_iqr_total :=
            (sensors.map (fun c => outlierCount c.2 IQR_MULT)).sum }

/-- Issues emitted by the Threshold Evaluator.  Each constructor carries
the numeric values cited in the corresponding message string of the
source, so an issue mentioning the actual and allowed values is one
whose payload holds both. -/
inductive Issue where
  | nonNumericDtypes
  | nanRatioExceeds (actual limit : ℚ)
  | negViolationsExceed (actual limit : Int)
deriving DecidableEq

/-- Embedding of evaluate_thresholds (lines 95-103): three appends in a
fixed order, guarded by the three strict checks. -/
def evaluate_thresholds (stats : Stats) (max_nan : ℚ) (max_neg : Int) : List Issue :=
  let issues : List Issue := []
  let issues := if stats.dtypes_numeric = false
    then issues ++ [Issue.nonNumericDtypes] else issues
  let issues := if Stats.nan_ratio stats > max_nan
    then issues ++ [Issue.nanRatioExceeds (Stats.nan_ratio stats) max_nan] else issues
  let issues := if stats.neg_violations_total > max_neg
    then issues ++ [Issue.negViolationsExceed stats.neg_violations_total max_neg] else issues
  issues

/-- Run-aborting exceptions of the validation entry point. -/
inductive RunError where
  /-- FileNotFoundError from load_group_df: the group's flat table was
  never produced. -/
  | missingArtifact (group : String)
  /-- ZeroDivisionError escaping basic_stats, uncaught in main. -/
  | zeroDivisionIn (group : String)
deriving DecidableEq

/-- Embedding of load_group_df (lines 24-34): the persisted-artifact
store maps a group name to its flat table when one was written.  Tables
produced by this pipeline always carry the two metadata columns, which
the FlatTable structure enforces, so the missing-columns ValueError
branch is unreachable in the model. -/
def load_group_df (store : String → Option (FlatTable (Option ℚ)))
    (group : String) : Except RunError (FlatTable (Option ℚ)) :=
  match store group with
  | none => .error (.missingArtifact group)
  | some df => .ok df

/-- The per-group loop of main (lines 118-139): load, compute stats,
evaluate thresholds, collect the report.  No exception is caught, so an
error aborts the remaining groups. -/
def runGroups (store : String → Option (FlatTable (Option ℚ)))
    (max_nan : ℚ) (max_neg : Int) :
    List String → Except RunError (List (String × Stats × List Issue))
  | [] => .ok []
  | g :: gs =>
    match load_group_df store g with
    | .error e => .error e
    | .ok df =>
      match basic_stats df g with
      | .error _ => .error (.zeroDivisionIn g)
      | .ok stats =>
        match runGroups store max_nan max_neg gs with
        | .error e => .error e
        | .ok tail =>
          .ok ((g, stats, evaluate_thresholds stats max_nan max_neg) :: tail)

/-- Embedding of main (lines 105-147): run the selected groups in
order; when the loop completes, overall_fail is set exactly when some
group's issues list is non-empty, all_reports maps each group to its
stats and issues, and sys.exit reports 1 on overall_fail and 0
otherwise. -/
def validation_main (store : String → Option (FlatTable (Option ℚ)))
    (max_nan : ℚ) (max_neg : Int) (groups : List String) :
    Except RunError (List (String × Stats × List Issue) × Nat) :=
  match runGroups store max_nan max_neg groups with
  | .error e => .error e
  | .ok reports =>
      .ok (reports, if reports.any (fun r => !r.2.2.isEmpty) then 1 else 0)

/-- C4: the outlier count drops missing values (a leading NaN never
changes the count), a column with no non-missing values reports zero
outliers, the default multiplier is 3, and on [1,2,3,4,5,100] with the
default multiplier q1 and q3 are the linearly interpolated 25th and 75th
percentiles 9/4 and 19/4, the bounds are [-21/4, 49/4], and exactly one
value (100) lies strictly outside them. -/
theorem claim_C4_outlier_rule :
    (∀ col : List (Option ℚ), dropna col = [] → outlierCount col IQR_MULT = 0)
  ∧ (∀ (col : List (Option ℚ)) (k : ℚ), outlierCount (none :: col) k = outlierCount col k)
  ∧ IQR_MULT = 3
  ∧ percentile 25 (dropna ([1, 2, 3, 4, 5, 100].map Option.some)) = 9/4
  ∧ percentile 75 (dropna ([1, 2, 3, 4, 5, 100].map Option.some)) = 19/4
  ∧ (9/4 : ℚ) - IQR_MULT * (19/4 - 9/4) = -21/4
  ∧ (19/4 : ℚ) + IQR_MULT * (19/4 - 9/4) = 49/4
  ∧ outlierCount ([1, 2, 3, 4, 5, 100].map Option.some) IQR_MULT = 1 := by
  refine ⟨?_, ?_, rfl, ?_, ?_, ?_, ?_, ?_⟩
  · intro col h
    simp [outlierCount, h]
  · intro col k
    have hdrop : dropna (none :: col) = dropna col := by simp [dropna]
    simp only [outlierCount, hdrop]
  · with_unfolding_all decide
  · with_unfolding_all decide
  · with_unfolding_all decide
  · with_unfolding_all decide
  · with_unfolding_all decide

/-- Witness for C4 at concrete columns: an all-missing column and a
column with a leading missing value. -/
theorem claim_C4_witness :
    outlierCount ([none] : List (Option ℚ)) IQR_MULT = 0
  ∧ outlierCount [none, some 5] IQR_MULT = outlierCount [some (5 : ℚ)] IQR_MULT :=
  ⟨claim_C4_outlier_rule.1 [none] (by with_unfolding_all decide),
   claim_C4_outlier_rule.2.1 [some 5] IQR_MULT⟩

set_option maxRecDepth 8192 in
/-- C5: the Threshold Evaluator returns the ordered concatenation of the
three checks (non-numeric dtypes, NaN ratio strictly above the limit
citing actual and limit, negative violations strictly above the limit
citing actual and limit); the list is empty exactly when all three
checks pass; with NaN ratio 0.002 against limit 0.001 and the other
checks passing exactly one issue carrying both values is produced, and
with NaN ratio 0.0005 the list is empty. -/
theorem claim_C5_threshold_eval :
    (∀ (s : Stats) (a : ℚ) (b : Int),
      evaluate_thresholds s a b
        = (if s.dtypes_numeric = false then [Issue.nonNumericDtypes] else [])
          ++ (if Stats.nan_ratio s > a
              then [Issue.nanRatioExceeds (Stats.nan_ratio s) a] else [])
          ++ (if s.neg_violations_total > b
              then [Issue.negViolationsExceed s.neg_violations_total b] else []))
  ∧ (∀ (s : Stats) (a : ℚ) (b : Int),
      evaluate_thresholds s a b = []
        ↔ s.dtypes_numeric = true ∧ Stats.nan_ratio s ≤ a ∧ s.neg_violations_total ≤ b)
  ∧ evaluate_thresholds
      { group := "high", shape := (1, 3), n_sensors := 1, dtypes_numeric := true,
        nan_total := 2, nan_ratio := 2/1000, neg_violations_total := 0,
        outliers_iqr_total := 0 } (1/1000) 0
      = [Issue.nanRatioExceeds (2/1000) (1/1000)]
  ∧ evaluate_thresholds
      { group := "high", shape := (1, 3), n_sensors := 1, dtypes_numeric := true,
        nan_total := 2, nan_ratio := 5/10000, neg_violations_total := 0,
        outliers_iqr_total := 0 } (1/1000) 0
      = [] := by
  have hmain : ∀ (s : Stats) (a : ℚ) (b : Int),
      evaluate_thresholds s a b
        = (if s.dtypes_numeric = false then [Issue.nonNumericDtypes] else [])
          ++ (if Stats.nan_ratio s > a
              then [Issue.nanRatioExceeds (Stats.nan_ratio s) a] else [])
          ++ (if s.neg_violations_total > b
              then [Issue.negViolationsExceed s.neg_violations_total b] else []) := by
    intro s a b
    simp only [evaluate_thresholds]
    by_cases h1 : s.dtypes_numeric = false <;>
      by_cases h2 : Stats.nan_ratio s > a <;>
        by_cases h3 : s.neg_violations_total > b <;>
          simp [h1, h2, h3]
  have aux : ∀ (c : Prop) (inst : Decidable c) (x : Issue),
      (if c then [x] else ([] : List Issue)) = [] → ¬ c := by
    intro c inst x h hc
    simp [hc] at h
  refine ⟨hmain, ?_, ?_, ?_⟩
  · intro s a b
    rw [hmain s a b]
    constructor
    · intro h
      rw [List.append_eq_nil, List.append_eq_nil] at h
      obtain ⟨⟨h1, h2⟩, h3⟩ := h
      refine ⟨?_, ?_, ?_⟩
      · have := aux _ _ _ h1
        revert this
        cases s.dtypes_numeric <;> simp
      · exact not_lt.mp (aux _ _ _ h2)
      · exact not_lt.mp (aux _ _ _ h3)
    · rintro ⟨h1, h2, h3⟩
      rw [if_neg (by simp [h1]), if_neg (not_lt.mpr h2), if_neg (not_lt.mpr h3)]
      rfl
  · with_unfolding_all decide
  · with_unfolding_all decide

/-- C6 counterexample: on a table with zero sensor columns the Quality
Metrics Engine does not report a NaN ratio of 0 — the division by
len(sensors) * n_rows raises ZeroDivisionError instead. -/
theorem claim_C6_counterexample :
    basic_stats { cycle := [1], t_in_cycle := [0], sensorCols := [] } "high"
      = .error .zeroDivision := by
  with_unfolding_all decide

/-- C6 amended: nan_ratio is nan_total / (n_sensor_columns * n_rows)
whenever that denominator is non-zero; with zero sensor columns or zero
rows basic_stats raises ZeroDivisionError rather than reporting 0. -/
theorem claim_C6_amended :
    (∀ (df : FlatTable (Option ℚ)) (g : String),
      df.sensorCols = [] ∨ FlatTable.nRows df = 0 →
        basic_stats df g = .error .zeroDivision)
  ∧ (∀ (df : FlatTable (Option ℚ)) (g : String) (s : Stats),
      basic_stats df g = .ok s →
        df.sensorCols.length * FlatTable.nRows df ≠ 0 ∧
        Stats.nan_ratio s
          = ((df.sensorCols.map (fun c => nanCount c.2)).sum : ℚ)
            / ((df.sensorCols.length * FlatTable.nRows df : Nat) : ℚ)) := by
  constructor
  · intro df g h
    have hz : df.sensorCols.length * FlatTable.nRows df = 0 := by
      rcases h with h | h
      · rw [h]
        simp
      · rw [h]
        simp
    simp [basic_stats, hz]
  · intro df g s h
    simp only [basic_stats] at h
    by_cases hz : df.sensorCols.length * FlatTable.nRows df = 0
    · rw [if_pos hz] at h
      cases h
    · rw [if_neg hz] at h
      refine ⟨hz, ?_⟩
      injection h with h
      rw [← h]

/-- Witness for the amended C6: a sensor column with zero rows raises,
and a 1-sensor 1-row table reports the exact quotient. -/
theorem claim_C6_witness :
    basic_stats (⟨[], [], [("PS1", [])]⟩ : FlatTable (Option ℚ)) "mid"
        = .error .zeroDivision
  ∧ ((⟨[1], [0], [("PS1", [some 1])]⟩ : FlatTable (Option ℚ)).sensorCols.length
      * FlatTable.nRows (⟨[1], [0], [("PS1", [some 1])]⟩ : FlatTable (Option ℚ)) ≠ 0 ∧
     Stats.nan_ratio
        ⟨"high", (1, 3), 1, true, 0, 0, 0, 0⟩
      = (((⟨[1], [0], [("PS1", [some 1])]⟩ : FlatTable (Option ℚ)).sensorCols.map
            (fun c => nanCount c.2)).sum : ℚ)
        / (((⟨[1], [0], [("PS1", [some 1])]⟩ : FlatTable (Option ℚ)).sensorCols.length
            * FlatTable.nRows (⟨[1], [0], [("PS1", [some 1])]⟩ : FlatTable (Option ℚ))
              : Nat) : ℚ)) :=
  ⟨claim_C6_amended.1 (⟨[], [], [("PS1", [])]⟩ : FlatTable (Option ℚ))
      "mid" (Or.inr rfl),
   claim_C6_amended.2 (⟨[1], [0], [("PS1", [some 1])]⟩ : FlatTable (Option ℚ)) "high"
      ⟨"high", (1, 3), 1, true, 0, 0, 0, 0⟩
      (by with_unfolding_all decide)⟩

/-- C10: missing entries are never counted as outliers or negative
violations — the outlier count is taken after dropping missing values
and a missing entry never satisfies the strictly-below-zero test — so
both per-column counts are bounded by the number of non-missing entries,
and a leading missing entry leaves the negative-violation count
unchanged. -/
theorem claim_C10_missing_not_counted :
    (∀ (col : List (Option ℚ)) (k : ℚ), outlierCount col k ≤ (dropna col).length)
  ∧ (∀ (name : String) (col : List (Option ℚ)),
      negViolationCount name col ≤ (dropna col).length)
  ∧ (∀ (name : String) (col : List (Option ℚ)),
      negViolationCount name (none :: col) = negViolationCount name col) := by
  have hneg : ∀ (col : List (Option ℚ)),
      (col.filter (fun v => match v with
        | some q => decide (q < 0)
        | none => false)).length ≤ (dropna col).length := by
    intro col
    induction col with
    | nil => simp
    | cons o t ih =>
      cases o with
      | none => simpa [dropna, List.filter_cons] using ih
      | some q =>
        simp only [dropna, List.filterMap_cons, List.filter_cons] at ih ⊢
        by_cases hq : q < 0 <;> simp [hq] <;> omega
  refine ⟨?_, ?_, ?_⟩
  · intro col k
    simp only [outlierCount]
    split
    · exact Nat.zero_le _
    · exact List.length_filter_le _ _
  · intro name col
    simp only [negViolationCount]
    split
    · exact hneg col
    · exact Nat.zero_le _
  · intro name col
    simp [negViolationCount, List.filter_cons]

/-- A non-degenerate table (some sensor column, some row) always gets a
stats record: the only exception in basic_stats is the zero division. -/
theorem basic_stats_ok_of_nonzero (df : FlatTable (Option ℚ)) (g : String)
    (h : df.sensorCols.length * FlatTable.nRows df ≠ 0) :
    ∃ s, basic_stats df g = .ok s := by
  simp only [basic_stats]
  rw [if_neg h]
  exact ⟨_, rfl⟩

/-- The group loop aborts with the load error of the first group whose
artifact is absent, provided every earlier group loads and validates. -/
theorem runGroups_error_of_missing (store : String → Option (FlatTable (Option ℚ)))
    (mn : ℚ) (mx : Int) :
    ∀ (gs1 : List String) (g : String) (gs2 : List String),
      (∀ g' ∈ gs1, ∃ df, store g' = some df
        ∧ df.sensorCols.length * FlatTable.nRows df ≠ 0) →
      store g = none →
      runGroups store mn mx (gs1 ++ g :: gs2) = .error (.missingArtifact g) := by
  intro gs1
  induction gs1 with
  | nil =>
    intro g gs2 _ hmiss
    simp [runGroups, load_group_df, hmiss]
  | cons g1 t ih =>
    intro g gs2 hok hmiss
    obtain ⟨df, hstore, hnz⟩ := hok g1 (List.mem_cons_self g1 t)
    obtain ⟨s, hs⟩ := basic_stats_ok_of_nonzero df g1 hnz
    have htail := ih g gs2 (fun g' hg' => hok g' (List.mem_cons_of_mem g1 hg')) hmiss
    simp [runGroups, load_group_df, hstore, hs, htail]

/-- C8 counterexample: two groups are requested, the first group's flat
table was never produced while the second group's table exists and is
healthy; the whole run aborts with the first group's error and the
second group is never validated nor reported — there is no per-group
isolation. -/
theorem claim_C8_counterexample :
    validation_main
      (fun g => if g = "mid"
        then some (⟨[1], [0], [("FS1", [some 1])]⟩ : FlatTable (Option ℚ))
        else none)
      (1/1000) 0 ["high", "mid"]
      = .error (.missingArtifact "high") := by
  with_unfolding_all decide

/-- C8 amended: when validation is requested for several groups and one
group's flat table was never produced, the run does fail with the
missing-artifact error for that group, but the failure is not contained
to that group: the loop aborts there, so any group listed after it is
not validated and no report mapping is returned at all (groups before it
must load and validate for the loop to reach the failing group). -/
theorem claim_C8_missing_artifact (store : String → Option (FlatTable (Option ℚ)))
    (mn : ℚ) (mx : Int) (gs1 : List String) (g : String) (gs2 : List String)
    (hok : ∀ g' ∈ gs1, ∃ df, store g' = some df
        ∧ df.sensorCols.length * FlatTable.nRows df ≠ 0)
    (hmiss : store g = none) :
    validation_main store mn mx (gs1 ++ g :: gs2) = .error (.missingArtifact g) := by
  simp [validation_main, runGroups_error_of_missing store mn mx gs1 g gs2 hok hmiss]

/-- Witness for the amended C8: the low group loads, the mid artifact is
missing, the high group is still pending — the run errors on mid. -/
theorem claim_C8_witness :
    validation_main
      (fun g => if g = "low"
        then some (⟨[1], [0], [("TS1", [some 1])]⟩ : FlatTable (Option ℚ))
        else none)
      (1/1000) 0 (["low"] ++ "mid" :: ["high"])
      = .error (.missingArtifact "mid") :=
  claim_C8_missing_artifact _ (1/1000) 0 ["low"] "mid" ["high"]
    (by
      intro g' hg'
      have hg : g' = "low" := by simpa using hg'
      subst hg
      exact ⟨⟨[1], [0], [("TS1", [some 1])]⟩, by with_unfolding_all decide,
        by with_unfolding_all decide⟩)
    (by with_unfolding_all decide)

/-- The completed loop reports the requested groups in order. -/
theorem runGroups_map_fst (store : String → Option (FlatTable (Option ℚ)))
    (mn : ℚ) (mx : Int) :
    ∀ (groups : List String) (reps : List (String × Stats × List Issue)),
      runGroups store mn mx groups = .ok reps → reps.map Prod.fst = groups := by
  intro groups
  induction groups with
  | nil =>
    intro reps h
    injection h with h
    rw [← h]
    rfl
  | cons g gs ih =>
    intro reps h
    cases hl : store g with
    | none =>
      rw [show runGroups store mn mx (g :: gs) = .error (.missingArtifact g) by
            simp [runGroups, load_group_df, hl]] at h
      cases h
    | some df =>
      cases hb : basic_stats df g with
      | error e =>
        rw [show runGroups store mn mx (g :: gs) = .error (.zeroDivisionIn g) by
              simp [runGroups, load_group_df, hl, hb]] at h
        cases h
      | ok stats =>
        cases hr : runGroups store mn mx gs with
        | error e =>
          rw [show runGroups store mn mx (g :: gs) = .error e by
                simp [runGroups, load_group_df, hl, hb, hr]] at h
          cases h
        | ok tail =>
          rw [show runGroups store mn mx (g :: gs)
                = .ok ((g, stats, evaluate_thresholds stats mn mx) :: tail) by
                simp [runGroups, load_group_df, hl, hb, hr]] at h
          injection h with h
          rw [← h, List.map_cons, ih tail hr]

/-- C9: whenever the validation run completes, its exit status is 0
exactly when every selected group's issues list is empty and 1
otherwise, and the returned mapping covers the selected groups in
order. -/
theorem claim_C9_exit_status (store : String → Option (FlatTable (Option ℚ)))
    (mn : ℚ) (mx : Int) (groups : List String)
    (reports : List (String × Stats × List Issue)) (code : Nat)
    (h : validation_main store mn mx groups = .ok (reports, code)) :
    (code = 0 ↔ ∀ r ∈ reports, r.2.2 = ([] : List Issue))
  ∧ (code = 0 ∨ code = 1)
  ∧ reports.map Prod.fst = groups := by
  cases hr : runGroups store mn mx groups with
  | error e =>
    rw [show validation_main store mn mx groups = .error e by
          simp [validation_main, hr]] at h
    cases h
  | ok reps =>
    rw [show validation_main store mn mx groups
          = .ok (reps, if reps.any (fun r => !r.2.2.isEmpty) then 1 else 0) by
          simp [validation_main, hr]] at h
    injection h with h
    have hrep : reps = reports := congrArg Prod.fst h
    have hcode : (if reps.any (fun r => !r.2.2.isEmpty) then 1 else 0) = code :=
      congrArg Prod.snd h
    rw [hrep] at hr hcode
    refine ⟨?_, ?_, runGroups_map_fst store mn mx groups reports hr⟩
    · rw [← hcode]
      by_cases hany : reports.any (fun r => !r.2.2.isEmpty)
      · rw [if_pos hany]
        simp only [List.any_eq_true, Bool.not_eq_true', List.isEmpty_eq_false] at hany
        obtain ⟨r, hrm, hrne⟩ := hany
        constructor
        · intro hc
          cases hc
        · intro hall
          exact absurd (hall r hrm) hrne
      · rw [if_neg hany]
        have hany' : reports.any (fun r => !r.2.2.isEmpty) = false :=
          Bool.eq_false_iff.mpr hany
        constructor
        · intro _ r hrm
          have hfail := List.any_eq_false.mp hany' r hrm
          simp only [Bool.not_eq_true'] at hfail
          cases hemp : r.2.2.isEmpty with
          | false => exact absurd hemp hfail
          | true => exact List.isEmpty_iff.mp hemp
        · intro _
          rfl
    · rw [← hcode]
      by_cases hany : reports.any (fun r => !r.2.2.isEmpty)
      · rw [if_pos hany]
        exact Or.inr rfl
      · rw [if_neg hany]
        exact Or.inl rfl

/-- Witness for C9 on a concrete completed run: one healthy group, no
issues, exit status 0, mapping ["high"]. -/
theorem claim_C9_witness :
    ((0 : Nat) = 0 ↔ ∀ r ∈ [("high", (⟨"high", (1, 3), 1, true, 0, 0, 0, 0⟩ : Stats),
        ([] : List Issue))], r.2.2 = ([] : List Issue))
  ∧ ((0 : Nat) = 0 ∨ (0 : Nat) = 1)
  ∧ ([("high", (⟨"high", (1, 3), 1, true, 0, 0, 0, 0⟩ : Stats),
        ([] : List Issue))]).map Prod.fst = ["high"] :=
  claim_C9_exit_status
    (fun g => if g = "high"
      then some (⟨[1], [0], [("PS1", [some 1])]⟩ : FlatTable (Option ℚ))
      else none)
    (1/1000) 0 ["high"]
    [("high", ⟨"high", (1, 3), 1, true, 0, 0, 0, 0⟩, [])] 0
    (by with_unfolding_all decide)

end Hydraulic
